import Mathlib

set_option maxRecDepth 8000
set_option maxHeartbeats 1000000

attribute [local semireducible] Rat.mul Rat.add Rat.sub Rat.inv

/-!
Verification of the license-api commission ledger.

The repository bundles several variants of the same Express/PostgreSQL service:
* `src/unnamed/part_003` (also `part_001`, `part_002`): the transactional variant.
  Agents carry a cached `balance` NUMERIC column; `POST /api/sales` and
  `POST /api/payouts` run inside `BEGIN ... COMMIT` with `SELECT ... FOR UPDATE`.
* `src/index.js` (middle variant): balance is derived on demand by `agentTotals`;
  `POST /api/agents/:id/payouts` checks the balance with plain queries and no lock,
  and `POST /api/sales` requires `customerId`.

Numeric modelling. PostgreSQL NUMERIC values and JavaScript numbers are embedded
as rationals.  JavaScript arithmetic on numbers is IEEE-754 binary64: `roundB64`
rounds a rational to the nearest 53-bit dyadic value (round half to even; overflow
and subnormals are far outside the magnitudes this service handles and are not
modelled).  When node-postgres sends a JavaScript number as a query parameter it
serializes it with `Number.prototype.toString`, the shortest decimal that reads
back to the same binary64 value; `shortestDec` computes that decimal.  Handler
inputs stand for the values produced by `express.json()`, i.e. binary64 values.
-/

/-- Binary length of a natural number, written with explicit fuel so that the
kernel can evaluate it inside `decide`. -/
def blenAux : Nat → Nat → Nat
  | 0, _ => 0
  | f + 1, n => if n = 0 then 0 else blenAux f (n / 2) + 1

/-- Binary length: number of binary digits of `n` (0 for 0). -/
def blen (n : Nat) : Nat := blenAux n n

/-- Decimal length of a natural number, fuel-driven. -/
def dlenAux : Nat → Nat → Nat
  | 0, _ => 0
  | f + 1, n => if n = 0 then 0 else dlenAux f (n / 10) + 1

/-- Decimal length: number of decimal digits of `n` (0 for 0). -/
def dlen (n : Nat) : Nat := dlenAux n n

/-- Two to an integer power, as a rational. -/
def pow2 (e : ℤ) : ℚ :=
  if 0 ≤ e then ((2 ^ e.toNat : ℕ) : ℚ) else 1 / ((2 ^ (-e).toNat : ℕ) : ℚ)

/-- Ten to an integer power, as a rational. -/
def pow10 (e : ℤ) : ℚ :=
  if 0 ≤ e then ((10 ^ e.toNat : ℕ) : ℚ) else 1 / ((10 ^ (-e).toNat : ℕ) : ℚ)

/-- Floor of a rational, computed directly on numerator and denominator. -/
def ratFloor (q : ℚ) : ℤ := q.num.fdiv (q.den : ℤ)

/-- Floor of the base-2 logarithm of a positive rational. -/
def floorLog2 (q : ℚ) : ℤ :=
  let e0 : ℤ := (blen q.num.toNat : ℤ) - (blen q.den : ℤ)
  if pow2 e0 ≤ q then e0 else e0 - 1

/-- Floor of the base-10 logarithm of a positive rational. -/
def floorLog10 (q : ℚ) : ℤ :=
  let e0 : ℤ := (dlen q.num.toNat : ℤ) - (dlen q.den : ℤ)
  if pow10 e0 ≤ q then e0 else e0 - 1

/-- Rounds a positive rational to the nearest value with a 53-bit significand
(round half to even): the rounding binary64 arithmetic applies to every
JavaScript number operation. -/
def roundPos53 (q : ℚ) : ℚ :=
  let e : ℤ := floorLog2 q
  let s : ℚ := q * pow2 (52 - e)
  let n : ℤ := ratFloor s
  let r : ℚ := s - (n : ℚ)
  let n' : ℤ :=
    if r < 1 / 2 then n
    else if 1 / 2 < r then n + 1
    else if n % 2 = 0 then n else n + 1
  (n' : ℚ) * pow2 (e - 52)

/-- The binary64 (JavaScript number) value nearest to a rational,
round half to even. -/
def roundB64 (q : ℚ) : ℚ :=
  if q = 0 then 0 else if q < 0 then -roundPos53 (-q) else roundPos53 q

/-- For a positive binary64 value `x`, tries to produce a decimal with `k`
significant digits that reads back (via `roundB64`) to exactly `x`; of the two
nearest `k`-digit decimals it prefers the one closer to `x`, breaking ties
towards an even final digit, as ECMAScript `Number::toString` does. -/
def decCand (x : ℚ) (L : ℤ) (k : Nat) : Option ℚ :=
  let e : ℤ := L - (k : ℤ) + 1
  let stp : ℚ := pow10 e
  let n : ℤ := ratFloor (x / stp)
  let c1 : ℚ := (n : ℚ) * stp
  let c2 : ℚ := ((n + 1 : ℤ) : ℚ) * stp
  if roundB64 c1 = x ∧ roundB64 c2 = x then
    if x - c1 < c2 - x then some c1
    else if c2 - x < x - c1 then some c2
    else if n % 2 = 0 then some c1 else some c2
  else if roundB64 c1 = x then some c1
  else if roundB64 c2 = x then some c2
  else none

/-- Shortest decimal reading back to the positive binary64 value `x`:
the value of `Number.prototype.toString` (17 significant digits always
suffice for binary64). -/
def shortestDecPos (x : ℚ) : ℚ :=
  (((List.range 17).findSome? fun i => decCand x (floorLog10 x) (i + 1)).getD x)

/-- The exact decimal value that is stored when a JavaScript number is sent as a
text query parameter (node-postgres serializes numbers with
`Number.prototype.toString`). -/
def shortestDec (x : ℚ) : ℚ :=
  if x = 0 then 0 else if x < 0 then -shortestDecPos (-x) else shortestDecPos x

/-- The JavaScript expression `(price * commissionPercent) / 100` evaluated in
binary64 arithmetic (`part_003` line 202, `src/index.js` line 401): the product
is rounded, then the quotient is rounded. -/
def jsCommission (price pctD : ℚ) : ℚ := roundB64 (roundB64 (price * pctD) / 100)

/-- JavaScript `String.prototype.trim` on the character list (Unicode
whitespace approximated by `Char.isWhitespace`), written with structural list
recursion so the kernel can evaluate it. -/
def jsTrim (s : String) : String :=
  String.mk (((s.data.dropWhile Char.isWhitespace).reverse.dropWhile Char.isWhitespace).reverse)

/-- JavaScript `String.prototype.startsWith`, as a prefix test on characters. -/
def strStarts (s p : String) : Bool := p.data.isPrefixOf s.data

/-- Drops the first `n` characters of a string (`substring(n)` / the effect of
replacing a leading pattern of length `n`). -/
def strDrop (s : String) (n : Nat) : String := String.mk (s.data.drop n)

/-- An agent row (`agents` table, `src/schema.sql`): profile, commission rate and
the cached `balance` column maintained by the transactional variant. -/
structure Agent where
  id : Nat
  name : String
  phone : Option String
  commission_percent : ℚ
  balance : ℚ
deriving DecidableEq, Repr

/-- A sale row (`sales` table): append-only ledger entry with the
commission-percent snapshot and the commission amount. Serial ids and
timestamps are represented by list position. -/
structure Sale where
  agent_id : Nat
  customer_id : Option Nat
  sale_price : ℚ
  commission_percent : ℚ
  commission_amount : ℚ
  note : Option String
deriving DecidableEq, Repr

/-- A payout row (`payouts` table): append-only ledger entry. -/
structure Payout where
  agent_id : Nat
  amount : ℚ
  note : Option String
deriving DecidableEq, Repr

/-- The relational store: agents, sales and payouts, each list in insertion
order (the `customers` table plays no role in the ledger claims and is not
modelled; `customer_id` is kept as an opaque optional reference). -/
structure DB where
  agents : List Agent
  sales : List Sale
  payouts : List Payout
deriving DecidableEq, Repr

/-- An HTTP response, as far as the claims observe it. -/
inductive Resp where
  | okUnit
  | okId (id : Nat)
  | okSale (id : Nat) (commissionPercent commissionAmount : ℚ)
  | err (status : Nat) (msg : String)
deriving DecidableEq, Repr

/-- True exactly on error responses. -/
def Resp.isErr : Resp → Bool
  | .err _ _ => true
  | _ => false

/-- Point lookup `SELECT ... FROM agents WHERE id = $1` (first matching row). -/
def findAgent (s : DB) (a : Nat) : Option Agent := s.agents.find? (fun ag => ag.id = a)

/-- Adds `d` to the balance of the row with id `a` (identity on other rows):
the effect of `UPDATE agents SET balance = balance + $1 WHERE id = $2`,
performed by PostgreSQL in exact NUMERIC arithmetic. -/
def bumpBal (a : Nat) (d : ℚ) (ag : Agent) : Agent :=
  if ag.id = a then { ag with balance := ag.balance + d } else ag

/-- The store after `UPDATE agents SET balance = balance + $1 WHERE id = $2`. -/
def updBalance (s : DB) (a : Nat) (d : ℚ) : DB :=
  { s with agents := s.agents.map (bumpBal a d) }

/-- Sum of `commission_amount` over an agent's sale rows (the `earned`
subquery of `agentTotals`, `src/index.js` lines 232-236). -/
def earned (s : DB) (a : Nat) : ℚ :=
  ((s.sales.filter (fun r => r.agent_id = a)).map (fun r => r.commission_amount)).sum

/-- Sum of `amount` over an agent's payout rows (the `paid` subquery of
`agentTotals`, `src/index.js` lines 237-241). -/
def paid (s : DB) (a : Nat) : ℚ :=
  ((s.payouts.filter (fun r => r.agent_id = a)).map (fun r => r.amount)).sum

/-- The derived balance `earned - paid` reported by `agentTotals`
(`src/index.js` lines 219-247). -/
def derivedBalance (s : DB) (a : Nat) : ℚ := earned s a - paid s a

/-- Next serial agent id (models the SERIAL primary-key sequence: fresh,
larger than every existing id). -/
def nextAgentId (s : DB) : Nat := (s.agents.map (fun ag => ag.id)).foldr max 0 + 1

/-- POST /api/sales of the transactional variant (`part_003` lines 167-244):
validate `agentId` and `salePrice`, `SELECT ... FOR UPDATE` the agent row
(404 when absent), compute the commission in binary64, insert the sale row with
the commission-percent snapshot, credit the agent's balance with the same
serialized amount, commit.  Every error path returns before any write, matching
the code, where the checks precede both INSERT and UPDATE. -/
def recordSale (s : DB) (agentId : Option Nat) (customerId : Option Nat)
    (salePrice : Option ℚ) (note : Option String) : Resp × DB :=
  match agentId with
  | none => (.err 400 "agentId is required", s)
  | some aId =>
    match salePrice with
    | none => (.err 400 "salePrice must be greater than 0", s)
    | some price =>
      if price ≤ 0 then (.err 400 "salePrice must be greater than 0", s)
      else
        match findAgent s aId with
        | none => (.err 404 "agent not found", s)
        | some ag =>
          let pctD := roundB64 ag.commission_percent
          let commD := jsCommission price pctD
          let row : Sale :=
            { agent_id := aId, customer_id := customerId,
              sale_price := shortestDec price,
              commission_percent := shortestDec pctD,
              commission_amount := shortestDec commD, note := note }
          (.okSale (s.sales.length + 1) pctD commD,
            { updBalance s aId (shortestDec commD) with sales := s.sales ++ [row] })

/-- POST /api/payouts of the transactional variant (`part_003` lines 247-309):
validate, `SELECT balance ... FOR UPDATE` (404 when absent), read the stored
NUMERIC balance through `Number()` (binary64 rounding), reject with
"insufficient balance" when it is below the requested amount, otherwise insert
the payout row and debit the balance with the same serialized amount. -/
def recordPayout (s : DB) (agentId : Option Nat) (amount : Option ℚ)
    (note : Option String) : Resp × DB :=
  match agentId with
  | none => (.err 400 "agentId is required", s)
  | some aId =>
    match amount with
    | none => (.err 400 "amount must be greater than 0", s)
    | some amt =>
      if amt ≤ 0 then (.err 400 "amount must be greater than 0", s)
      else
        match findAgent s aId with
        | none => (.err 404 "agent not found", s)
        | some ag =>
          if roundB64 ag.balance < amt then (.err 400 "insufficient balance", s)
          else
            let row : Payout := { agent_id := aId, amount := shortestDec amt, note := note }
            (.okId (s.payouts.length + 1),
              { updBalance s aId (-(shortestDec amt)) with payouts := s.payouts ++ [row] })

/-- POST /api/agents of the transactional variant (`part_003` lines 59-79):
requires a nonblank name, stores the trimmed name, the optional phone and
`commissionPercent ?? 0` - there is no range check on the percent. -/
def createAgentP3 (s : DB) (name phone : Option String) (commissionPercent : Option ℚ) :
    Resp × DB :=
  if jsTrim (name.getD "") = "" then (.err 400 "name is required", s)
  else
    (.okId (nextAgentId s),
      { s with agents := s.agents ++
          [{ id := nextAgentId s, name := jsTrim (name.getD ""), phone := phone,
             commission_percent := shortestDec (commissionPercent.getD 0), balance := 0 }] })

/-- POST /api/agents of `src/index.js` (lines 261-281): requires name and phone,
rejects a `commissionPercent` outside 0-100 with a 400, otherwise inserts.
The agents table of this variant has no balance column; the derived balance of
a fresh agent is 0, recorded here as `balance := 0`. -/
def createAgentIdx (s : DB) (name phone : Option String) (commissionPercent : Option ℚ) :
    Resp × DB :=
  if name.getD "" = "" then (.err 400 "name required", s)
  else if phone.getD "" = "" then (.err 400 "phone required", s)
  else
    if commissionPercent.getD 0 < 0 ∨ 100 < commissionPercent.getD 0 then
      (.err 400 "commissionPercent must be 0-100", s)
    else
      (.okId (nextAgentId s),
        { s with agents := s.agents ++
            [{ id := nextAgentId s, name := name.getD "", phone := phone,
               commission_percent := shortestDec (commissionPercent.getD 0), balance := 0 }] })

/-- PUT /api/agents/:id of `src/index.js` (lines 284-312): validates the
optional `commissionPercent`, 404 on a missing agent, then updates only the
`agents` row, merging absent fields from the current row.  When the percent is
absent the current stored value is written back unchanged (the code passes the
row's own value through). -/
def updateAgentIdx (s : DB) (id : Option Nat) (name phone : Option String)
    (commissionPercent : Option ℚ) : Resp × DB :=
  match id with
  | none => (.err 400 "invalid id", s)
  | some aId =>
    if (match commissionPercent with
        | some p => decide (p < 0 ∨ 100 < p)
        | none => false) then (.err 400 "commissionPercent must be 0-100", s)
    else
      match findAgent s aId with
      | none => (.err 404 "agent not found", s)
      | some cur =>
        (.okUnit,
          { s with agents := s.agents.map fun ag =>
              if ag.id = aId then
                { ag with
                  name := name.getD cur.name,
                  phone := match phone with | some ph => some ph | none => cur.phone,
                  commission_percent := match commissionPercent with
                    | some p => shortestDec p
                    | none => cur.commission_percent }
              else ag })

/-- POST /api/sales of `src/index.js` (lines 387-420): `customerId`, `agentId`
and a positive `salePrice` are all required (missing `customerId` gives
`Number(undefined) = NaN`, which is falsy, hence 400); the commission is
computed in binary64 and the sale row inserted - this variant maintains no
balance column. -/
def recordSaleIdx (s : DB) (customerId agentId : Option Nat) (salePrice : Option ℚ) :
    Resp × DB :=
  match customerId with
  | none => (.err 400 "customerId required", s)
  | some cId =>
    match agentId with
    | none => (.err 400 "agentId required", s)
    | some aId =>
      match salePrice with
      | none => (.err 400 "salePrice must be greater than 0", s)
      | some price =>
        if price ≤ 0 then (.err 400 "salePrice must be greater than 0", s)
        else
          match findAgent s aId with
          | none => (.err 404 "agent not found", s)
          | some ag =>
            let pctD := roundB64 ag.commission_percent
            let commD := jsCommission price pctD
            (.okSale (s.sales.length + 1) pctD commD,
              { s with sales := s.sales ++
                  [{ agent_id := aId, customer_id := some cId,
                     sale_price := shortestDec price,
                     commission_percent := shortestDec pctD,
                     commission_amount := shortestDec commD, note := none }] })

/-- The report payload of GET /api/agents/:id/report (`part_003` lines 97-163):
the agent row, ledger totals and the agent's sale and payout rows, most recent
first (the LIMIT 200 paging is not modelled). -/
structure Report where
  agent : Agent
  salesAmountTotal : ℚ
  commissionTotal : ℚ
  payoutsTotal : ℚ
  sales : List Sale
  payouts : List Payout
deriving DecidableEq, Repr

/-- GET /api/agents/:id/report (`part_003` lines 97-163): 404 (none) when the
agent is missing; otherwise the stored rows are returned as they are - the
sale rows carry their own `commission_percent` and `commission_amount`
snapshots, nothing is recomputed from the agent's current rate. -/
def reportP3 (s : DB) (aId : Nat) : Option Report :=
  (findAgent s aId).map fun ag =>
    { agent := ag,
      salesAmountTotal := ((s.sales.filter (fun r => r.agent_id = aId)).map
        (fun r => r.sale_price)).sum,
      commissionTotal := earned s aId,
      payoutsTotal := paid s aId,
      sales := (s.sales.filter (fun r => r.agent_id = aId)).reverse,
      payouts := (s.payouts.filter (fun r => r.agent_id = aId)).reverse }

/-- One completed balance-mutating request of the transactional variant. -/
inductive LedgerOp where
  | sale (agentId : Option Nat) (customerId : Option Nat) (salePrice : Option ℚ)
      (note : Option String)
  | payout (agentId : Option Nat) (amount : Option ℚ) (note : Option String)
deriving DecidableEq, Repr

/-- The store after a completed request (fully applied on success, untouched on
rejection, as each handler either commits all writes or performs none). -/
def applyOp (s : DB) : LedgerOp → DB
  | .sale a c p n => (recordSale s a c p n).2
  | .payout a q n => (recordPayout s a q n).2

/-- The store after a finite sequence of completed requests. -/
def applyOps (s : DB) (ops : List LedgerOp) : DB := ops.foldl applyOp s
/-- Outcome of the authentication middleware. -/
inductive AuthRes where
  | ok
  | unauthorized
  | misconfigured
deriving DecidableEq, Repr

/-- The first auth middleware of `src/index.js` (lines 9-16): a bare strict
comparison of the `x-api-key` header against `process.env.API_KEY`.  Both sides
are string-or-undefined, so when the secret is unset and the header absent the
comparison is `undefined === undefined` and the request passes. -/
def authV1 (xApiKey envKey : Option String) : AuthRes :=
  if xApiKey = envKey then .ok else .unauthorized

/-- The auth middleware of `part_000` (lines 12-42): the Bearer token (when the
Authorization header starts with "Bearer ") overrides `x-api-key`; the secret is
re-read from the environment and trimmed; a blank secret yields a 500
"Server misconfigured", a missing, blank or mismatched token a 401. -/
def authP0 (xApiKey authz envKey : Option String) : AuthRes :=
  let token : Option String :=
    match authz with
    | some b => if strStarts b "Bearer " then some (jsTrim (strDrop b 7)) else xApiKey.map jsTrim
    | none => xApiKey.map jsTrim
  let realKey := jsTrim (envKey.getD "")
  if realKey = "" then .misconfigured
  else
    match token with
    | none => .unauthorized
    | some t => if t = "" ∨ t ≠ realKey then .unauthorized else .ok

/-- Strips a copy-pasted "API_KEY=" prefix from the configured secret
(`part_003` lines 11-14; JavaScript `replace` with a string pattern replaces
only the first occurrence, which here is the prefix itself). -/
def dropEnvAssign (raw : String) : String :=
  if strStarts raw "API_KEY=" then strDrop raw 8 else raw

/-- The auth middleware shared by `part_003` (lines 17-36), `part_001`
(lines 23-40) and `part_002`: Bearer token overrides `x-api-key`; a blank
configured secret, a missing or blank token, or a mismatch all yield 401 -
there is no 500 path for a missing secret in these variants. -/
def authP3 (xApiKey authz envKey : Option String) : AuthRes :=
  let apiKey := dropEnvAssign (envKey.getD "")
  let token : Option String :=
    match authz with
    | some b => if strStarts b "Bearer " then some (jsTrim (strDrop b 7)) else xApiKey
    | none => xApiKey
  if apiKey = "" then .unauthorized
  else
    match token with
    | none => .unauthorized
    | some t => if t = "" ∨ t ≠ apiKey then .unauthorized else .ok

/-- Express route wiring `app.post(path, auth, handler)`: when the middleware
responds, the handler - and hence the store - is never reached. -/
def withAuth (ar : AuthRes) (handler : DB → Resp × DB) (s : DB) : Resp × DB :=
  match ar with
  | .ok => handler s
  | .unauthorized => (.err 401 "Unauthorized", s)
  | .misconfigured => (.err 500 "Server misconfigured", s)

/-!
Interleaving model for the concurrency claim.  Each balance-mutating request is
broken into the SQL statements it issues; a configuration carries the store,
the set of held row locks, and one thread per in-flight request (program
remainder plus the JavaScript locals it has read).  A schedule is a list of
thread indices; a scheduled thread performs its next statement unless it is
blocked on a `FOR UPDATE` lock held by another thread, in which case the step
is a no-op (the thread waits).
-/

/-- One SQL statement (plus the JavaScript around it) of an in-flight request. -/
inductive Act where
  | lockReadPct (a : Nat)
  | lockReadBal (a : Nat)
  | insSale (a : Nat) (price : ℚ)
  | addCommission (a : Nat) (price : ℚ)
  | checkBal (a : Nat) (amt : ℚ)
  | insPayout (a : Nat) (amt : ℚ)
  | subAmount (a : Nat) (amt : ℚ)
  | release (a : Nat)
  | readDerived (a : Nat)
  | checkDerived (amt : ℚ)
  | insPayoutPlain (a : Nat) (amt : ℚ)
deriving DecidableEq, Repr

/-- An in-flight request: remaining statements and the JavaScript locals
(`commissionPercent` and `balance`) read so far. -/
structure Thr where
  prog : List Act
  pct : ℚ
  bal : ℚ
deriving DecidableEq, Repr

/-- A configuration: the store, the held row locks (agent id, thread index) and
the in-flight requests. -/
structure Config where
  db : DB
  lock : List (Nat × Nat)
  threads : List Thr
deriving DecidableEq, Repr

/-- True when some other thread holds the `FOR UPDATE` lock on agent `a`. -/
def lockedByOther (l : List (Nat × Nat)) (a tid : Nat) : Bool :=
  l.any fun p => p.1 = a ∧ p.2 ≠ tid

/-- POST /api/sales of `part_003` as its statement sequence:
`SELECT commission_percent ... FOR UPDATE`; `INSERT INTO sales ...`;
`UPDATE agents SET balance = balance + commission`; `COMMIT`. -/
def saleTxProg (a : Nat) (price : ℚ) : List Act :=
  [.lockReadPct a, .insSale a price, .addCommission a price, .release a]

/-- POST /api/payouts of `part_003` as its statement sequence: the balance is
read and checked under the same `FOR UPDATE` lock used for the debit. -/
def payoutTxProg (a : Nat) (amt : ℚ) : List Act :=
  [.lockReadBal a, .checkBal a amt, .insPayout a amt, .subAmount a amt, .release a]

/-- POST /api/agents/:id/payouts of `src/index.js` (lines 315-342) as its
statement sequence: `agentTotals` reads the derived balance with a plain query,
the JavaScript compares, then a plain `INSERT INTO payouts` - no transaction
and no lock anywhere. -/
def payoutPlainProg (a : Nat) (amt : ℚ) : List Act :=
  [.readDerived a, .checkDerived amt, .insPayoutPlain a amt]

/-- Replaces thread `i`'s state. -/
def setThr (c : Config) (i : Nat) (t : Thr) : Config :=
  { c with threads := c.threads.set i t }

/-- Performs thread `i`'s next statement (no-op when the thread is done or
blocked on a lock held by another thread). -/
def step (c : Config) (i : Nat) : Config :=
  match c.threads[i]? with
  | none => c
  | some th =>
    match th.prog with
    | [] => c
    | act :: rest =>
      match act with
      | .lockReadPct a =>
        if lockedByOther c.lock a i then c
        else
          match findAgent c.db a with
          | none => setThr c i { th with prog := [] }
          | some ag =>
            { setThr c i { th with prog := rest, pct := roundB64 ag.commission_percent } with
              lock := c.lock ++ [(a, i)] }
      | .lockReadBal a =>
        if lockedByOther c.lock a i then c
        else
          match findAgent c.db a with
          | none => setThr c i { th with prog := [] }
          | some ag =>
            { setThr c i { th with prog := rest, bal := roundB64 ag.balance } with
              lock := c.lock ++ [(a, i)] }
      | .insSale a price =>
        { setThr c i { th with prog := rest } with
          db := { c.db with sales := c.db.sales ++
            [{ agent_id := a, customer_id := none,
               sale_price := shortestDec price,
               commission_percent := shortestDec th.pct,
               commission_amount := shortestDec (jsCommission price th.pct),
               note := none }] } }
      | .addCommission a price =>
        { setThr c i { th with prog := rest } with
          db := updBalance c.db a (shortestDec (jsCommission price th.pct)) }
      | .checkBal a amt =>
        if th.bal < amt then setThr c i { th with prog := [.release a] }
        else setThr c i { th with prog := rest }
      | .insPayout a amt =>
        { setThr c i { th with prog := rest } with
          db := { c.db with payouts := c.db.payouts ++
            [{ agent_id := a, amount := shortestDec amt, note := none }] } }
      | .subAmount a amt =>
        { setThr c i { th with prog := rest } with
          db := updBalance c.db a (-(shortestDec amt)) }
      | .release a =>
        { setThr c i { th with prog := rest } with
          lock := c.lock.filter fun p => ¬(p.1 = a ∧ p.2 = i) }
      | .readDerived a =>
        match findAgent c.db a with
        | none => setThr c i { th with prog := [] }
        | some _ => setThr c i { th with prog := rest, bal := roundB64 (derivedBalance c.db a) }
      | .checkDerived amt =>
        if amt > th.bal then setThr c i { th with prog := [] }
        else setThr c i { th with prog := rest }
      | .insPayoutPlain a amt =>
        { setThr c i { th with prog := rest } with
          db := { c.db with payouts := c.db.payouts ++
            [{ agent_id := a, amount := shortestDec amt, note := none }] } }

/-- Runs a schedule (a list of thread indices) from a configuration. -/
def run (c : Config) (sched : List Nat) : Config := sched.foldl step c

/-- Initial configuration: `n` concurrent POST /api/sales requests for the same
agent and price, against store `s`, no lock held. -/
def initSales (s : DB) (a : Nat) (price : ℚ) (n : Nat) : Config :=
  { db := s, lock := [], threads := List.replicate n { prog := saleTxProg a price, pct := 0, bal := 0 } }
/-- The canonical consistency predicate of the spec: every agent row's balance
equals the sum of commissions over its sale rows minus the sum of amounts over
its payout rows (`derivedBalance`). -/
def BalInv (s : DB) : Prop :=
  ∀ ag ∈ s.agents, ag.balance = derivedBalance s ag.id

/-- The sale row inserted by one locked sale transaction on agent `a` for a
request price, given the agent's stored commission rate. -/
def saleRowOf (a : Nat) (price pct : ℚ) : Sale :=
  { agent_id := a, customer_id := none,
    sale_price := shortestDec price,
    commission_percent := shortestDec (roundB64 pct),
    commission_amount := shortestDec (jsCommission price (roundB64 pct)),
    note := none }

/-- The amount one locked sale transaction credits to the agent's balance. -/
def commOf (price pct : ℚ) : ℚ := shortestDec (jsCommission price (roundB64 pct))

/-- Invariant of `n` concurrent locked sale transactions against the single
agent `a`: every reachable configuration is characterized by how many threads
have passed the sale INSERT and the balance UPDATE, and by the single
`FOR UPDATE` lock holder (when one exists). -/
def SInv (db0 : DB) (a : Nat) (ag : Agent) (price : ℚ) (c : Config) : Prop :=
  findAgent db0 a = some ag ∧
  (∀ th ∈ c.threads, ∃ d, d ≤ 4 ∧ th.prog = (saleTxProg a price).drop d ∧
      (1 ≤ d → th.pct = roundB64 ag.commission_percent)) ∧
  c.db.sales = db0.sales ++ List.replicate
      (c.threads.countP fun th => decide (th.prog.length ≤ 2)) (saleRowOf a price ag.commission_percent) ∧
  c.db.agents = db0.agents.map
      (bumpBal a (((c.threads.countP fun th => decide (th.prog.length ≤ 1)) : ℚ) *
        commOf price ag.commission_percent)) ∧
  c.db.payouts = db0.payouts ∧
  ((∀ th ∈ c.threads, th.prog.length = 4 ∨ th.prog.length = 0) ∧ c.lock = [] ∨
    (∃ i th, c.threads[i]? = some th ∧ 1 ≤ th.prog.length ∧ th.prog.length ≤ 3 ∧
      c.lock = [(a, i)] ∧
      ∀ j thj, j ≠ i → c.threads[j]? = some thj → thj.prog.length = 4 ∨ thj.prog.length = 0))

/-- A store holding one agent at 10 percent with consistent zero balance - a
concrete instance for witnesses. -/
def dbOne : DB :=
  { agents := [{ id := 1, name := "A", phone := none, commission_percent := 10, balance := 0 }],
    sales := [], payouts := [] }

/-- The store after recording a sale with `salePrice = 1.5` against `dbOne`:
the stored commission is 0.15 and the balance 0.15. -/
def dbC2a : DB := (recordSale dbOne (some 1) none (some (3 / 2)) none).2

/-- The store after additionally recording a sale with
`salePrice = 1.4999999999999996` (the binary64 value of that JSON literal):
the stored commission is 0.14999999999999997 - the shortest decimal of the
binary64 product - and the stored balance is exactly 0.29999999999999997. -/
def dbC2b : DB :=
  (recordSale dbC2a (some 1) none (some (roundB64 ((14999999999999996 : ℚ) / 10 ^ 16))) none).2

/-- A store with one agent whose ledger holds a single sale of commission 20
(derived balance 20), the setup of the concurrent-payout race. -/
def dbRace : DB :=
  { agents := [{ id := 1, name := "A", phone := none, commission_percent := 10, balance := 20 }],
    sales := [{ agent_id := 1, customer_id := none, sale_price := 200,
                commission_percent := 10, commission_amount := 20, note := none }],
    payouts := [] }

/-- Two concurrent POST /api/agents/:id/payouts requests of `src/index.js`, each
withdrawing the full derived balance of 20. -/
def raceCfg : Config :=
  { db := dbRace, lock := [],
    threads := [{ prog := payoutPlainProg 1 20, pct := 0, bal := 0 },
                { prog := payoutPlainProg 1 20, pct := 0, bal := 0 }] }
/-- A store holding one agent at 3 percent, the rate exhibiting binary64
rounding in the commission computation. -/
def dbPct3 : DB :=
  { agents := [{ id := 1, name := "A", phone := none, commission_percent := 3, balance := 0 }],
    sales := [], payouts := [] }

/-! ### Helper lemmas -/

theorem bumpBal_keeps_id (a : Nat) (d : ℚ) (ag : Agent) : (bumpBal a d ag).id = ag.id := by
  unfold bumpBal; split <;> rfl

theorem bumpBal_keeps_pct (a : Nat) (d : ℚ) (ag : Agent) :
    (bumpBal a d ag).commission_percent = ag.commission_percent := by
  unfold bumpBal; split <;> rfl

theorem bumpBal_zero (a : Nat) (ag : Agent) : bumpBal a 0 ag = ag := by
  unfold bumpBal; split <;> (cases ag; simp)

theorem bumpBal_comp (a : Nat) (d e : ℚ) (ag : Agent) :
    bumpBal a e (bumpBal a d ag) = bumpBal a (d + e) ag := by
  unfold bumpBal
  by_cases h : ag.id = a <;> simp [h, add_assoc]

/-- Success path of the transactional POST /api/sales, fully characterized. -/
theorem recordSale_success (s : DB) (aId : Nat) (cId : Option Nat) (price : ℚ)
    (note : Option String) (ag : Agent) (hag : findAgent s aId = some ag) (hp : 0 < price) :
    recordSale s (some aId) cId (some price) note =
      (.okSale (s.sales.length + 1) (roundB64 ag.commission_percent)
          (jsCommission price (roundB64 ag.commission_percent)),
       { agents := s.agents.map (bumpBal aId (commOf price ag.commission_percent)),
         sales := s.sales ++
           [({ agent_id := aId, customer_id := cId,
               sale_price := shortestDec price,
               commission_percent := shortestDec (roundB64 ag.commission_percent),
               commission_amount := commOf price ag.commission_percent,
               note := note } : Sale)],
         payouts := s.payouts }) := by
  simp [recordSale, hag, not_le.mpr hp, updBalance, commOf]
/-- C6: every failing RecordSale or RecordPayout call of the transactional
variant - validation, not-found, or insufficient balance - leaves the store
unchanged: every error response is paired with the untouched store, so no sale
or payout row is inserted and no balance moves. -/
theorem C6_failed_ops_leave_store_unchanged (s : DB) (agentId customerId : Option Nat)
    (salePrice amount : Option ℚ) (note : Option String) :
    ((recordSale s agentId customerId salePrice note).1.isErr = true →
      (recordSale s agentId customerId salePrice note).2 = s) ∧
    ((recordPayout s agentId amount note).1.isErr = true →
      (recordPayout s agentId amount note).2 = s) := by
  constructor
  · unfold recordSale
    cases agentId with
    | none => simp
    | some aId =>
      cases salePrice with
      | none => simp
      | some price =>
        by_cases hp : price ≤ 0
        · simp [hp]
        · cases hag : findAgent s aId with
          | none => simp [hp, hag]
          | some ag => simp [hp, hag, Resp.isErr]
  · unfold recordPayout
    cases agentId with
    | none => simp
    | some aId =>
      cases amount with
      | none => simp
      | some amt =>
        by_cases ha : amt ≤ 0
        · simp [ha]
        · cases hag : findAgent s aId with
          | none => simp [ha, hag]
          | some ag =>
            by_cases hb : roundB64 ag.balance < amt
            · simp [ha, hag, hb]
            · simp [ha, hag, hb, Resp.isErr]

/-- Witness for C6: a not-found sale (unknown agent 2) and an
insufficient-balance payout against the concrete store both fail and leave it
untouched. -/
theorem C6_failed_ops_leave_store_unchanged_witness :
    (recordSale dbOne (some 2) none (some 5) none).1.isErr = true ∧
    (recordSale dbOne (some 2) none (some 5) none).2 = dbOne ∧
    (recordPayout dbOne (some 1) (some 5) none).1.isErr = true ∧
    (recordPayout dbOne (some 1) (some 5) none).2 = dbOne :=
  ⟨by decide,
   (C6_failed_ops_leave_store_unchanged dbOne (some 2) none (some 5) (some 5) none).1
     (by decide),
   by decide,
   (C6_failed_ops_leave_store_unchanged dbOne (some 1) none (some 5) (some 5) none).2
     (by decide)⟩

/-- C8 (amended side): `src/index.js` POST /api/agents rejects any request
whose commissionPercent lies outside 0-100 with a 400 error and no inserted
row, whatever the name and phone fields hold. -/
theorem C8_idx_rejects_out_of_range_percent (s : DB) (name phone : Option String) (pct : ℚ)
    (h : pct < 0 ∨ 100 < pct) :
    ∃ m, createAgentIdx s name phone (some pct) = (.err 400 m, s) := by
  unfold createAgentIdx
  by_cases hn : name.getD "" = ""
  · exact ⟨"name required", by simp [hn]⟩
  · by_cases hph : phone.getD "" = ""
    · exact ⟨"phone required", by simp [hn, hph]⟩
    · exact ⟨"commissionPercent must be 0-100", by simp [hn, hph, h]⟩

/-- Witness for C8: commissionPercent 150 is rejected by the `src/index.js`
route with a 400 and an unchanged store. -/
theorem C8_idx_rejects_out_of_range_percent_witness :
    ((150 : ℚ) < 0 ∨ (100 : ℚ) < 150) ∧
    ∃ m, createAgentIdx dbOne (some "B") (some "p") (some 150) = (.err 400 m, dbOne) :=
  ⟨Or.inr (by norm_num),
   C8_idx_rejects_out_of_range_percent dbOne (some "B") (some "p") 150 (Or.inr (by norm_num))⟩

/-- Counterexample for C8: the transactional variant's POST /api/agents
(`part_003` lines 59-79) performs no range check - commissionPercent 150 is
accepted with a 200 and the agent row is inserted with rate 150. -/
theorem C8_part003_accepts_out_of_range_percent :
    (createAgentP3 dbOne (some "B") none (some 150)).1 = .okId 2 ∧
    ((createAgentP3 dbOne (some "B") none (some 150)).2.agents.map
      fun ag => ag.commission_percent) = [10, 150] := by decide

/-- C9 (amended side): in the transactional variant's POST /api/sales a request
with a valid agent, positive price and no customerId succeeds, and the inserted
sale row carries no customer reference; `src/index.js`'s POST /api/sales
instead rejects the same request with 400 "customerId required". -/
theorem C9_optional_customer_id (s : DB) (aId : Nat) (price : ℚ) (note : Option String)
    (ag : Agent) (hag : findAgent s aId = some ag) (hp : 0 < price) :
    (recordSale s (some aId) none (some price) note).1 =
      .okSale (s.sales.length + 1) (roundB64 ag.commission_percent)
        (jsCommission price (roundB64 ag.commission_percent)) ∧
    (recordSale s (some aId) none (some price) note).2.sales =
      s.sales ++
        [({ agent_id := aId, customer_id := none,
            sale_price := shortestDec price,
            commission_percent := shortestDec (roundB64 ag.commission_percent),
            commission_amount := commOf price ag.commission_percent,
            note := note } : Sale)] ∧
    recordSaleIdx s none (some aId) (some price) = (.err 400 "customerId required", s) := by
  rw [recordSale_success s aId none price note ag hag hp]
  exact ⟨rfl, rfl, rfl⟩

/-- Witness for C9: concrete instance on `dbOne` with salePrice 200. -/
theorem C9_optional_customer_id_witness :
    findAgent dbOne 1 =
      some { id := 1, name := "A", phone := none, commission_percent := 10, balance := 0 } ∧
    (0 : ℚ) < 200 ∧
    (recordSale dbOne (some 1) none (some 200) none).1 = .okSale 1 10 20 ∧
    ((recordSale dbOne (some 1) none (some 200) none).2.sales.map
      fun r => r.customer_id) = [none] := by
  refine ⟨by decide, by norm_num, ?_, ?_⟩
  · have h := (C9_optional_customer_id dbOne 1 200 none
      { id := 1, name := "A", phone := none, commission_percent := 10, balance := 0 }
      (by decide) (by norm_num)).1
    rw [h]
    decide
  · have h := (C9_optional_customer_id dbOne 1 200 none
      { id := 1, name := "A", phone := none, commission_percent := 10, balance := 0 }
      (by decide) (by norm_num)).2.1
    rw [h]
    decide

/-- Counterexample for C9: `src/index.js` POST /api/sales rejects a request
with an existing agent and positive salePrice when customerId is omitted. -/
theorem C9_idx_requires_customer_id :
    (findAgent dbOne 1).isSome = true ∧ (0 : ℚ) < 5 ∧
    recordSaleIdx dbOne none (some 1) (some 5) = (.err 400 "customerId required", dbOne) := by
  decide
/-- Counterexample for C3: a sale with salePrice 0.1 (JSON literal, binary64
value `roundB64 (1/10)`) against an agent at 3 percent.  Exact decimal
arithmetic would give 0.003; the code computes `(0.1 * 3) / 100` in binary64,
returns the double 0.0030000000000000005 (here written as its exact dyadic
value) and stores its serialization 0.0030000000000000005, neither of which
equals 0.003 - under either reading of salePrice (the written decimal 1/10 or
its binary64 value). -/
theorem C3_commission_not_exact_decimal :
    (recordSale dbPct3 (some 1) none (some (roundB64 (1 / 10))) none).1 =
      .okSale 1 3 (jsCommission (roundB64 (1 / 10)) 3) ∧
    jsCommission (roundB64 (1 / 10)) 3 ≠ (1 / 10 : ℚ) * 3 / 100 ∧
    jsCommission (roundB64 (1 / 10)) 3 ≠ roundB64 (1 / 10) * 3 / 100 ∧
    ((recordSale dbPct3 (some 1) none (some (roundB64 (1 / 10))) none).2.sales.map
      fun r => r.commission_amount) = [(30000000000000005 : ℚ) / 10 ^ 19] ∧
    (30000000000000005 : ℚ) / 10 ^ 19 ≠ (1 / 10 : ℚ) * 3 / 100 := by decide

/-- C3 (amended): on a successful RecordSale the returned commission amount is
`jsCommission price pct` - salePrice times the agent's commission percent over
100 evaluated in binary64 - the stored sale row carries its text serialization
`commOf`, and the agent's balance is credited with exactly that same stored
amount. -/
theorem C3_commission_binary64 (s : DB) (aId : Nat) (cId : Option Nat) (price : ℚ)
    (note : Option String) (ag : Agent) (hag : findAgent s aId = some ag) (hp : 0 < price) :
    (recordSale s (some aId) cId (some price) note).1 =
      .okSale (s.sales.length + 1) (roundB64 ag.commission_percent)
        (jsCommission price (roundB64 ag.commission_percent)) ∧
    ((recordSale s (some aId) cId (some price) note).2.sales.map
      fun r => r.commission_amount) =
      (s.sales.map fun r => r.commission_amount) ++ [commOf price ag.commission_percent] ∧
    (recordSale s (some aId) cId (some price) note).2.agents =
      s.agents.map (bumpBal aId (commOf price ag.commission_percent)) := by
  rw [recordSale_success s aId cId price note ag hag hp]
  exact ⟨rfl, by simp, rfl⟩

/-- Witness for C3 (amended): with integer inputs (price 200 at 10 percent) the
binary64 computation is exact, the commission is 20 and the balance is
credited 20. -/
theorem C3_commission_binary64_witness :
    findAgent dbOne 1 =
      some { id := 1, name := "A", phone := none, commission_percent := 10, balance := 0 } ∧
    (0 : ℚ) < 200 ∧
    (recordSale dbOne (some 1) none (some 200) none).1 = .okSale 1 10 20 ∧
    (recordSale dbOne (some 1) none (some 200) none).2.agents =
      dbOne.agents.map (bumpBal 1 20) := by
  refine ⟨by decide, by norm_num, ?_, ?_⟩
  · have h := (C3_commission_binary64 dbOne 1 none 200 none
      { id := 1, name := "A", phone := none, commission_percent := 10, balance := 0 }
      (by decide) (by norm_num)).1
    rw [h]
    decide
  · have h := (C3_commission_binary64 dbOne 1 none 200 none
      { id := 1, name := "A", phone := none, commission_percent := 10, balance := 0 }
      (by decide) (by norm_num)).2.2
    rw [h]
    have : commOf 200 10 = 20 := by decide
    rw [this]

/-- C10: when a request carries both an `x-api-key` header and an Authorization
header starting with "Bearer ", the auth middlewares of `part_003`/`part_001`
and of `part_000` compare only the Bearer token - the result is the same as if
no `x-api-key` were sent - so a wrong Bearer token is rejected even when the
`x-api-key` value matches the secret. -/
theorem C10_bearer_overrides_api_key (xk bz : String) (env : Option String)
    (hb : strStarts bz "Bearer " = true) :
    (authP3 (some xk) (some bz) env = authP3 none (some bz) env ∧
     authP0 (some xk) (some bz) env = authP0 none (some bz) env) ∧
    (authP3 none (some bz) env = .unauthorized →
      authP3 (some xk) (some bz) env = .unauthorized) := by
  have h3 : authP3 (some xk) (some bz) env = authP3 none (some bz) env := by
    simp [authP3, hb]
  have h0 : authP0 (some xk) (some bz) env = authP0 none (some bz) env := by
    simp [authP0, hb]
  exact ⟨⟨h3, h0⟩, fun h => h3.trans h⟩

/-- Witness for C10: secret "k", matching x-api-key "k", Bearer token "bad":
the request is rejected by both middlewares. -/
theorem C10_bearer_overrides_api_key_witness :
    strStarts "Bearer bad" "Bearer " = true ∧
    authP3 (some "k") (some "Bearer bad") (some "k") = authP3 none (some "Bearer bad") (some "k") ∧
    authP3 (some "k") (some "Bearer bad") (some "k") = .unauthorized ∧
    authP0 (some "k") (some "Bearer bad") (some "k") = .unauthorized := by
  refine ⟨by decide, (C10_bearer_overrides_api_key "k" "Bearer bad" (some "k") (by decide)).1.1, ?_, ?_⟩
  · exact (C10_bearer_overrides_api_key "k" "Bearer bad" (some "k") (by decide)).2 (by decide)
  · rw [(C10_bearer_overrides_api_key "k" "Bearer bad" (some "k") (by decide)).1.2]
    decide
/-- Counterexample for C7: with `process.env.API_KEY` unset, the first
`src/index.js` auth middleware (lines 9-16) compares the absent `x-api-key`
header against the absent secret - `undefined === undefined` - so a request
with no credential at all is NOT answered 401: it passes authentication and the
route handler (hence the store) runs, and no 500 configuration error is
produced either. -/
theorem C7_auth_missing_secret_passthrough :
    authV1 none none = .ok ∧
    withAuth (authV1 none none) (fun s => (.okId 1, s)) dbOne = (.okId 1, dbOne) :=
  ⟨rfl, rfl⟩

/-- C7 (amended): with a usable secret configured, all three auth middlewares
answer 401 to a missing or mismatched credential - in every header shape the
code distinguishes: no Authorization header, a non-Bearer Authorization header
(where the `x-api-key` value, possibly absent or wrong, is the credential), and
a Bearer Authorization header with a non-matching token (which overrides any
`x-api-key`, even a correct one) - and the handler, hence the store, never
runs.  On a missing server secret, `part_000`'s middleware answers 500
"Server misconfigured" before any store access, while the `part_003`/`part_001`
middleware answers 401 instead of 500 (and `src/index.js` lines 9-16 accept,
per the counterexample; that variant never reads Authorization, so its
credential is the `x-api-key` header alone). -/
theorem C7_auth_variants :
    (∀ k xk s handler, jsTrim k ≠ "" →
        (∀ t, xk = some t → jsTrim t ≠ jsTrim k) →
        withAuth (authP0 xk none (some k)) handler s = (.err 401 "Unauthorized", s)) ∧
    (∀ k xk b s handler, jsTrim k ≠ "" → strStarts b "Bearer " = false →
        (∀ t, xk = some t → jsTrim t ≠ jsTrim k) →
        withAuth (authP0 xk (some b) (some k)) handler s = (.err 401 "Unauthorized", s)) ∧
    (∀ k xk b s handler, jsTrim k ≠ "" → strStarts b "Bearer " = true →
        jsTrim (strDrop b 7) ≠ jsTrim k →
        withAuth (authP0 xk (some b) (some k)) handler s = (.err 401 "Unauthorized", s)) ∧
    (∀ xk bz s handler,
        withAuth (authP0 xk bz none) handler s = (.err 500 "Server misconfigured", s)) ∧
    (∀ xk bz, authP3 xk bz none = .unauthorized) ∧
    (∀ k xk s handler, dropEnvAssign k ≠ "" →
        (∀ t, xk = some t → t ≠ dropEnvAssign k) →
        withAuth (authP3 xk none (some k)) handler s = (.err 401 "Unauthorized", s)) ∧
    (∀ k xk b s handler, dropEnvAssign k ≠ "" → strStarts b "Bearer " = false →
        (∀ t, xk = some t → t ≠ dropEnvAssign k) →
        withAuth (authP3 xk (some b) (some k)) handler s = (.err 401 "Unauthorized", s)) ∧
    (∀ k xk b s handler, dropEnvAssign k ≠ "" → strStarts b "Bearer " = true →
        jsTrim (strDrop b 7) ≠ dropEnvAssign k →
        withAuth (authP3 xk (some b) (some k)) handler s = (.err 401 "Unauthorized", s)) ∧
    (∀ k xk s handler, xk ≠ some k →
        withAuth (authV1 xk (some k)) handler s = (.err 401 "Unauthorized", s)) := by
  have hempty : jsTrim "" = "" := by decide
  have hdrop : dropEnvAssign "" = "" := by decide
  refine ⟨?_, ?_, ?_, ?_, ?_, ?_, ?_, ?_, ?_⟩
  · intro k xk s handler hk hxk
    cases xk with
    | none => simp [authP0, withAuth, hk]
    | some t =>
      have ht := hxk t rfl
      simp [authP0, withAuth, hk, ht]
  · intro k xk b s handler hk hb hxk
    cases xk with
    | none => simp [authP0, withAuth, hk, hb]
    | some t =>
      have ht := hxk t rfl
      simp [authP0, withAuth, hk, hb, ht]
  · intro k xk b s handler hk hb ht
    simp [authP0, withAuth, hk, hb, ht]
  · intro xk bz s handler
    simp [authP0, withAuth, hempty]
  · intro xk bz
    simp [authP3, hdrop]
  · intro k xk s handler hk hxk
    cases xk with
    | none => simp [authP3, withAuth, hk]
    | some t =>
      have ht := hxk t rfl
      simp [authP3, withAuth, hk, ht]
  · intro k xk b s handler hk hb hxk
    cases xk with
    | none => simp [authP3, withAuth, hk, hb]
    | some t =>
      have ht := hxk t rfl
      simp [authP3, withAuth, hk, hb, ht]
  · intro k xk b s handler hk hb ht
    simp [authP3, withAuth, hk, hb, ht]
  · intro k xk s handler ht
    simp [authV1, withAuth, ht]

/-- Witness for C7 (amended): secret "k"; every rejected header shape is
exercised concretely - no credential at all, a wrong `x-api-key` with no
Authorization header, a wrong `x-api-key` under a non-Bearer Authorization
header, a wrong Bearer token overriding a CORRECT `x-api-key`, the two
missing-secret behaviors, and the `src/index.js` comparison - on a concrete
store and handler. -/
theorem C7_auth_variants_witness :
    jsTrim "k" ≠ "" ∧ dropEnvAssign "k" ≠ "" ∧
    strStarts "Basic z" "Bearer " = false ∧
    strStarts "Bearer bad" "Bearer " = true ∧
    jsTrim (strDrop "Bearer bad" 7) ≠ jsTrim "k" ∧
    jsTrim (strDrop "Bearer bad" 7) ≠ dropEnvAssign "k" ∧
    withAuth (authP0 none none (some "k")) (fun s => (.okId 7, s)) dbOne =
      (.err 401 "Unauthorized", dbOne) ∧
    withAuth (authP0 (some "x") (some "Basic z") (some "k")) (fun s => (.okId 7, s)) dbOne =
      (.err 401 "Unauthorized", dbOne) ∧
    withAuth (authP0 (some "k") (some "Bearer bad") (some "k")) (fun s => (.okId 7, s)) dbOne =
      (.err 401 "Unauthorized", dbOne) ∧
    withAuth (authP0 none none none) (fun s => (.okId 7, s)) dbOne =
      (.err 500 "Server misconfigured", dbOne) ∧
    authP3 none none none = .unauthorized ∧
    withAuth (authP3 (some "x") none (some "k")) (fun s => (.okId 7, s)) dbOne =
      (.err 401 "Unauthorized", dbOne) ∧
    withAuth (authP3 (some "x") (some "Basic z") (some "k")) (fun s => (.okId 7, s)) dbOne =
      (.err 401 "Unauthorized", dbOne) ∧
    withAuth (authP3 (some "k") (some "Bearer bad") (some "k")) (fun s => (.okId 7, s)) dbOne =
      (.err 401 "Unauthorized", dbOne) ∧
    withAuth (authV1 (some "x") (some "k")) (fun s => (.okId 7, s)) dbOne =
      (.err 401 "Unauthorized", dbOne) :=
  ⟨by decide, by decide, by decide, by decide, by decide, by decide,
   C7_auth_variants.1 "k" none dbOne _ (by decide) (fun t ht => nomatch ht),
   C7_auth_variants.2.1 "k" (some "x") "Basic z" dbOne _ (by decide) (by decide)
     (fun t ht => by cases ht; decide),
   C7_auth_variants.2.2.1 "k" (some "k") "Bearer bad" dbOne _ (by decide) (by decide) (by decide),
   C7_auth_variants.2.2.2.1 none none dbOne _,
   C7_auth_variants.2.2.2.2.1 none none,
   C7_auth_variants.2.2.2.2.2.1 "k" (some "x") dbOne _ (by decide)
     (fun t ht => by cases ht; decide),
   C7_auth_variants.2.2.2.2.2.2.1 "k" (some "x") "Basic z" dbOne _ (by decide) (by decide)
     (fun t ht => by cases ht; decide),
   C7_auth_variants.2.2.2.2.2.2.2.1 "k" (some "k") "Bearer bad" dbOne _ (by decide) (by decide)
     (by decide),
   C7_auth_variants.2.2.2.2.2.2.2.2 "k" (some "x") dbOne _ (by decide)⟩

theorem derived_after_sale (ags : List Agent) (s : DB) (row : Sale) (x : Nat) :
    derivedBalance { agents := ags, sales := s.sales ++ [row], payouts := s.payouts } x =
      derivedBalance s x + (if row.agent_id = x then row.commission_amount else 0) := by
  by_cases hr : row.agent_id = x
  · simp [derivedBalance, earned, paid, List.filter_append, hr]
    ring
  · simp [derivedBalance, earned, paid, List.filter_append, hr]

theorem derived_after_payout (ags : List Agent) (s : DB) (row : Payout) (x : Nat) :
    derivedBalance { agents := ags, sales := s.sales, payouts := s.payouts ++ [row] } x =
      derivedBalance s x - (if row.agent_id = x then row.amount else 0) := by
  by_cases hr : row.agent_id = x
  · simp [derivedBalance, earned, paid, List.filter_append, hr]
    ring
  · simp [derivedBalance, earned, paid, List.filter_append, hr]

/-- Success path of the transactional POST /api/payouts, fully characterized. -/
theorem recordPayout_success (s : DB) (aId : Nat) (amt : ℚ) (note : Option String)
    (ag : Agent) (hag : findAgent s aId = some ag) (ha : 0 < amt)
    (hb : ¬ roundB64 ag.balance < amt) :
    recordPayout s (some aId) (some amt) note =
      (.okId (s.payouts.length + 1),
       { agents := s.agents.map (bumpBal aId (-(shortestDec amt))),
         sales := s.sales,
         payouts := s.payouts ++
           [({ agent_id := aId, amount := shortestDec amt, note := note } : Payout)] }) := by
  simp [recordPayout, hag, not_le.mpr ha, hb, updBalance]

theorem balInv_recordSale (s : DB) (agentId customerId : Option Nat) (salePrice : Option ℚ)
    (note : Option String) (h : BalInv s) :
    BalInv (recordSale s agentId customerId salePrice note).2 := by
  cases agentId with
  | none => exact h
  | some aId =>
    cases salePrice with
    | none => exact h
    | some price =>
      by_cases hp : price ≤ 0
      · have he : (recordSale s (some aId) customerId (some price) note).2 = s := by
          simp [recordSale, hp]
        rw [he]; exact h
      · cases hag : findAgent s aId with
        | none =>
          have he : (recordSale s (some aId) customerId (some price) note).2 = s := by
            simp [recordSale, hp, hag]
          rw [he]; exact h
        | some ag =>
          rw [recordSale_success s aId customerId price note ag hag (not_le.mp hp)]
          intro a' ha'
          obtain ⟨a0, ha0, rfl⟩ := List.mem_map.mp ha'
          rw [bumpBal_keeps_id, derived_after_sale]
          unfold bumpBal
          by_cases hid : a0.id = aId
          · simp [hid, h a0 ha0]
          · simp [hid, Ne.symm hid, h a0 ha0]

theorem balInv_recordPayout (s : DB) (agentId : Option Nat) (amount : Option ℚ)
    (note : Option String) (h : BalInv s) :
    BalInv (recordPayout s agentId amount note).2 := by
  cases agentId with
  | none => exact h
  | some aId =>
    cases amount with
    | none => exact h
    | some amt =>
      by_cases ha : amt ≤ 0
      · have he : (recordPayout s (some aId) (some amt) note).2 = s := by
          simp [recordPayout, ha]
        rw [he]; exact h
      · cases hag : findAgent s aId with
        | none =>
          have he : (recordPayout s (some aId) (some amt) note).2 = s := by
            simp [recordPayout, ha, hag]
          rw [he]; exact h
        | some ag =>
          by_cases hb : roundB64 ag.balance < amt
          · have he : (recordPayout s (some aId) (some amt) note).2 = s := by
              simp [recordPayout, ha, hag, hb]
            rw [he]; exact h
          · rw [recordPayout_success s aId amt note ag hag (not_le.mp ha) hb]
            intro a' ha'
            obtain ⟨a0, ha0, rfl⟩ := List.mem_map.mp ha'
            rw [bumpBal_keeps_id, derived_after_payout]
            unfold bumpBal
            by_cases hid : a0.id = aId
            · simp [hid, h a0 ha0]
              ring
            · simp [hid, Ne.symm hid, h a0 ha0]

/-- C1: after any finite sequence of completed RecordSale and RecordPayout
operations of the transactional variant, starting from any consistent store,
every agent row's balance equals the sum of `commission_amount` over that
agent's sale rows minus the sum of `amount` over its payout rows - the same
quantity `agentTotals` reports as the derived balance. -/
theorem C1_ledger_balance_invariant (s : DB) (ops : List LedgerOp)
    (h : ∀ ag ∈ s.agents, ag.balance = derivedBalance s ag.id) :
    ∀ ag ∈ (applyOps s ops).agents,
      ag.balance = derivedBalance (applyOps s ops) ag.id := by
  induction ops generalizing s with
  | nil => exact h
  | cons op rest ih =>
    cases op with
    | sale a c p n => exact ih _ (balInv_recordSale s a c p n h)
    | payout a q n => exact ih _ (balInv_recordPayout s a q n h)

/-- Witness for C1: a sale of 200 at 10 percent followed by a payout of 15
against the consistent one-agent store leaves stored balance 5, equal to the
derived balance. -/
theorem C1_ledger_balance_invariant_witness :
    (∀ ag ∈ dbOne.agents, ag.balance = derivedBalance dbOne ag.id) ∧
    ∀ ag ∈ (applyOps dbOne
        [.sale (some 1) none (some 200) none, .payout (some 1) (some 15) none]).agents,
      ag.balance = derivedBalance (applyOps dbOne
        [.sale (some 1) none (some 200) none, .payout (some 1) (some 15) none]) ag.id :=
  ⟨by decide,
   C1_ledger_balance_invariant dbOne
     [.sale (some 1) none (some 200) none, .payout (some 1) (some 15) none] (by decide)⟩
/-- C2 code-bug evaluation.  Scenario: agent at 10 percent; sale with
salePrice 1.5 (stored commission 0.15); sale with salePrice 1.4999999999999996
(stored commission 0.14999999999999997, the serialized binary64 result); the
stored NUMERIC balance is then exactly 0.29999999999999997.  A payout request
of 0.3 (binary64 value `roundB64 (3/10)`) EXCEEDS that balance - both the
stored amount 3/10 and the binary64 request value are larger - yet the handler
accepts it: `Number()` rounds the stored balance up to the same binary64 value
0.3, the `balance < amount` guard fails to fire, the payout row is inserted and
the stored balance becomes -3e-17, which is negative. -/
theorem C2_payout_float_check_bug :
    (dbC2b.agents.map fun ag => ag.balance) = [(29999999999999997 : ℚ) / 10 ^ 17] ∧
    (29999999999999997 : ℚ) / 10 ^ 17 < 3 / 10 ∧
    (29999999999999997 : ℚ) / 10 ^ 17 < roundB64 (3 / 10) ∧
    (recordPayout dbC2b (some 1) (some (roundB64 (3 / 10))) none).1 = .okId 1 ∧
    ((recordPayout dbC2b (some 1) (some (roundB64 (3 / 10))) none).2.payouts.map
      fun r => r.amount) = [3 / 10] ∧
    ((recordPayout dbC2b (some 1) (some (roundB64 (3 / 10))) none).2.agents.map
      fun ag => ag.balance) = [-(3 : ℚ) / 10 ^ 17] ∧
    (-(3 : ℚ) / 10 ^ 17 < 0) := by decide

theorem find?_map_of_id (l : List Agent) (x : Nat) (u : Agent → Agent)
    (hu : ∀ ag, (u ag).id = ag.id) :
    (l.map u).find? (fun ag => ag.id = x) = (l.find? fun ag => ag.id = x).map u := by
  rw [List.find?_map]
  have hp : ((fun ag => decide (ag.id = x)) ∘ u) = fun ag => decide (ag.id = x) := by
    funext ag
    simp [Function.comp, hu]
  rw [hp]

/-- PUT /api/agents/:id only ever rewrites the agents table through an
id-preserving row update; sales and payouts are untouched. -/
theorem updateAgent_shape (s : DB) (id : Option Nat) (name phone : Option String)
    (pct : Option ℚ) :
    ∃ u : Agent → Agent, (∀ ag, (u ag).id = ag.id) ∧
      (updateAgentIdx s id name phone pct).2 =
        { agents := s.agents.map u, sales := s.sales, payouts := s.payouts } := by
  cases id with
  | none => exact ⟨fun ag => ag, fun _ => rfl, by simp [updateAgentIdx]⟩
  | some aId =>
    cases pct with
    | some p =>
      by_cases hp : p < 0 ∨ 100 < p
      · exact ⟨fun ag => ag, fun _ => rfl, by simp [updateAgentIdx, hp]⟩
      · cases hf : findAgent s aId with
        | none => exact ⟨fun ag => ag, fun _ => rfl, by simp [updateAgentIdx, hp, hf]⟩
        | some cur =>
          refine ⟨fun ag =>
            if ag.id = aId then
              { ag with
                name := name.getD cur.name,
                phone := match phone with | some ph => some ph | none => cur.phone,
                commission_percent := shortestDec p }
            else ag, fun ag => by by_cases h : ag.id = aId <;> simp [h], ?_⟩
          simp [updateAgentIdx, hp, hf]
    | none =>
      cases hf : findAgent s aId with
      | none => exact ⟨fun ag => ag, fun _ => rfl, by simp [updateAgentIdx, hf]⟩
      | some cur =>
        refine ⟨fun ag =>
          if ag.id = aId then
            { ag with
              name := name.getD cur.name,
              phone := match phone with | some ph => some ph | none => cur.phone,
              commission_percent := cur.commission_percent }
          else ag, fun ag => by by_cases h : ag.id = aId <;> simp [h], ?_⟩
        simp [updateAgentIdx, hf]

/-- C5: updating an agent leaves every sale and payout row unchanged; the
report returns exactly the stored rows (their own commission_percent and
commission_amount snapshots, most recent first); the rows the report returns
are identical before and after any profile update; and a sale recorded after
an update snapshots the agent's current stored rate at sale time. -/
theorem C5_snapshot_immutable :
    (∀ s id name phone pct,
        ((updateAgentIdx s id name phone pct).2).sales = s.sales ∧
        ((updateAgentIdx s id name phone pct).2).payouts = s.payouts) ∧
    (∀ s aId rep, reportP3 s aId = some rep →
        rep.sales = (s.sales.filter fun r => r.agent_id = aId).reverse ∧
        rep.payouts = (s.payouts.filter fun r => r.agent_id = aId).reverse) ∧
    (∀ s id name phone pct aId,
        (reportP3 ((updateAgentIdx s id name phone pct).2) aId).map (fun rep => rep.sales) =
          (reportP3 s aId).map fun rep => rep.sales) ∧
    (∀ s aId cId price note ag, findAgent s aId = some ag → 0 < price →
        (recordSale s (some aId) cId (some price) note).2.sales =
          s.sales ++
            [({ agent_id := aId, customer_id := cId,
                sale_price := shortestDec price,
                commission_percent := shortestDec (roundB64 ag.commission_percent),
                commission_amount := commOf price ag.commission_percent,
                note := note } : Sale)]) := by
  refine ⟨?_, ?_, ?_, ?_⟩
  · intro s id name phone pct
    obtain ⟨u, hu, he⟩ := updateAgent_shape s id name phone pct
    rw [he]
    exact ⟨rfl, rfl⟩
  · intro s aId rep hrep
    cases hf : findAgent s aId with
    | none => rw [reportP3, hf] at hrep; cases hrep
    | some a0 =>
      rw [reportP3, hf] at hrep
      cases hrep
      exact ⟨rfl, rfl⟩
  · intro s id name phone pct aId
    obtain ⟨u, hu, he⟩ := updateAgent_shape s id name phone pct
    rw [he]
    have hfind : findAgent
        { agents := s.agents.map u, sales := s.sales, payouts := s.payouts } aId =
        (findAgent s aId).map u := by
      unfold findAgent
      exact find?_map_of_id s.agents aId u hu
    cases hf : findAgent s aId with
    | none => simp [reportP3, hfind, hf]
    | some a0 => simp [reportP3, hfind, hf]
  · intro s aId cId price note ag hag hp
    rw [recordSale_success s aId cId price note ag hag hp]

/-- Witness for C5: raising the rate of the `dbOne` agent from 10 to 20 leaves
the (empty) ledger rows intact and the report unchanged, and a sale of 200
recorded afterwards snapshots 20 percent, commission 40. -/
theorem C5_snapshot_immutable_witness :
    ((updateAgentIdx dbOne (some 1) none none (some 20)).2).sales = dbOne.sales ∧
    ((updateAgentIdx dbOne (some 1) none none (some 20)).2).payouts = dbOne.payouts ∧
    (reportP3 ((updateAgentIdx dbOne (some 1) none none (some 20)).2) 1).map
        (fun rep => rep.sales) = (reportP3 dbOne 1).map (fun rep => rep.sales) ∧
    ((recordSale ((updateAgentIdx dbOne (some 1) none none (some 20)).2)
        (some 1) none (some 200) none).2.sales.map
      fun r => (r.commission_percent, r.commission_amount)) = [(20, 40)] := by
  refine ⟨(C5_snapshot_immutable.1 dbOne (some 1) none none (some 20)).1,
          (C5_snapshot_immutable.1 dbOne (some 1) none none (some 20)).2,
          C5_snapshot_immutable.2.2.1 dbOne (some 1) none none (some 20) 1, ?_⟩
  have h := C5_snapshot_immutable.2.2.2 ((updateAgentIdx dbOne (some 1) none none (some 20)).2)
    1 none 200 none
    { id := 1, name := "A", phone := none, commission_percent := 20, balance := 0 }
    (by decide) (by norm_num)
  rw [h]
  decide
/-- Counterexample for C4: two concurrent `src/index.js`
POST /api/agents/:id/payouts requests, each withdrawing the full balance 20 of
the same agent, interleaved read-read-check-check-insert-insert.  Both read the
same derived balance outside any lock or transaction, both approvals pass, both
payout rows are inserted, and the derived balance ends at -20 - an outcome no
serial execution produces (the serial schedule rejects the second payout and
ends at balance 0). -/
theorem C4_unlocked_payout_race :
    (∀ th ∈ (run raceCfg [0, 1, 0, 1, 0, 1]).threads, th.prog = []) ∧
    (run raceCfg [0, 1, 0, 1, 0, 1]).db.payouts.length = 2 ∧
    derivedBalance (run raceCfg [0, 1, 0, 1, 0, 1]).db 1 = -20 ∧
    (∀ th ∈ (run raceCfg [0, 0, 0, 1, 1, 1]).threads, th.prog = []) ∧
    (run raceCfg [0, 0, 0, 1, 1, 1]).db.payouts.length = 1 ∧
    derivedBalance (run raceCfg [0, 0, 0, 1, 1, 1]).db 1 = 0 := by decide

theorem map_bump_comp (l : List Agent) (a : Nat) (d e : ℚ) :
    (l.map (bumpBal a d)).map (bumpBal a e) = l.map (bumpBal a (d + e)) := by
  rw [List.map_map]
  have : (bumpBal a e ∘ bumpBal a d) = bumpBal a (d + e) := by
    funext x
    exact bumpBal_comp a d e x
  rw [this]

theorem step_threads_length (c : Config) (i : Nat) :
    (step c i).threads.length = c.threads.length := by
  unfold step
  (repeat' split) <;> simp [setThr]

theorem run_threads_length (c : Config) (sched : List Nat) :
    (run c sched).threads.length = c.threads.length := by
  induction sched generalizing c with
  | nil => rfl
  | cons j rest ih => rw [run, List.foldl_cons, ← run, ih, step_threads_length]

theorem map_bump_amount_congr (l : List Agent) (a : Nat) (d e : ℚ) (h : d = e) :
    l.map (bumpBal a d) = l.map (bumpBal a e) := by
  rw [h]

theorem sInv_step (db0 : DB) (a : Nat) (ag : Agent) (price : ℚ) (c : Config) (i : Nat)
    (h : SInv db0 a ag price c) : SInv db0 a ag price (step c i) := by
  obtain ⟨hag, hths, hsales, hagents, hpay, hlock⟩ := h
  cases hth : c.threads[i]? with
  | none =>
    unfold step
    rw [hth]
    exact ⟨hag, hths, hsales, hagents, hpay, hlock⟩
  | some th =>
    have hmem : th ∈ c.threads := List.getElem?_mem hth
    obtain ⟨hlt, hget⟩ := List.getElem?_eq_some.mp hth
    obtain ⟨d, hd4, hprog, hpct⟩ := hths th hmem
    have hcount : ∀ (p : Thr → Bool) (th' : Thr),
        (c.threads.set i th').countP p =
          c.threads.countP p - (if p th then 1 else 0) + (if p th' then 1 else 0) := by
      intro p th'
      rw [List.countP_set p c.threads i th' hlt, hget]
    have hd : d = 0 ∨ d = 1 ∨ d = 2 ∨ d = 3 ∨ d = 4 := by omega
    rcases hd with rfl | rfl | rfl | rfl | rfl
    · -- d = 0: the SELECT ... FOR UPDATE statement
      simp only [saleTxProg, List.drop] at hprog
      by_cases hl : lockedByOther c.lock a i
      · have hstep : step c i = c := by
          simp [step, hth, hprog, hl]
        rw [hstep]
        exact ⟨hag, hths, hsales, hagents, hpay, hlock⟩
      · have hfree : c.lock = [] ∧ ∀ t ∈ c.threads, t.prog.length = 4 ∨ t.prog.length = 0 := by
          rcases hlock with ⟨hall, hnil⟩ | ⟨j, thj, hj, h1j, h3j, hlockj, hothers⟩
          · exact ⟨hnil, hall⟩
          · exfalso
            by_cases hji : j = i
            · subst hji
              rw [hth] at hj
              injection hj with he
              subst he
              rw [hprog] at h3j
              simp at h3j
            · rw [hlockj] at hl
              simp [lockedByOther, hji] at hl
        obtain ⟨hnil, hall⟩ := hfree
        have hfind : findAgent c.db a =
            some (bumpBal a (((c.threads.countP fun t => decide (t.prog.length ≤ 1)) : ℚ) *
              commOf price ag.commission_percent) ag) := by
          show c.db.agents.find? _ = _
          rw [hagents, find?_map_of_id _ _ _ (fun x => bumpBal_keeps_id _ _ x)]
          rw [show db0.agents.find? (fun x => x.id = a) = some ag from hag]
          rfl
        have hstep : step c i =
            { db := c.db, lock := c.lock ++ [(a, i)],
              threads := c.threads.set i
                { prog := [.insSale a price, .addCommission a price, .release a],
                  pct := roundB64 ag.commission_percent, bal := th.bal } } := by
          simp [step, hth, hprog, hl, hfind, setThr, bumpBal_keeps_pct]
        rw [hstep]
        refine ⟨hag, ?_, ?_, ?_, hpay, ?_⟩
        · intro t ht
          rcases List.mem_or_eq_of_mem_set ht with hm | rfl
          · exact hths t hm
          · exact ⟨1, by omega, rfl, fun _ => rfl⟩
        · rw [hcount]
          simp only [hprog]
          simp
          exact hsales
        · rw [hcount]
          simp only [hprog]
          simp
          exact hagents
        · right
          refine ⟨i, _, List.getElem?_set_eq_of_lt _ hlt, by simp, by simp, by simp [hnil], ?_⟩
          intro j tj hne hj
          rw [List.getElem?_set_ne (Ne.symm hne)] at hj
          exact hall tj (List.getElem?_mem hj)
    · -- d = 1: INSERT INTO sales
      simp only [saleTxProg, List.drop] at hprog
      have hpctv : th.pct = roundB64 ag.commission_percent := hpct (by omega)
      have hhold : c.lock = [(a, i)] ∧
          ∀ j tj, j ≠ i → c.threads[j]? = some tj →
            tj.prog.length = 4 ∨ tj.prog.length = 0 := by
        rcases hlock with ⟨hall, hnil⟩ | ⟨j, thj, hj, h1j, h3j, hlockj, hothers⟩
        · exfalso
          rcases hall th hmem with h4 | h0
          · rw [hprog] at h4; simp at h4
          · rw [hprog] at h0; simp at h0
        · by_cases hji : j = i
          · subst hji
            rw [hth] at hj
            injection hj with he
            subst he
            exact ⟨hlockj, hothers⟩
          · exfalso
            rcases hothers i th (Ne.symm hji) hth with h4 | h0
            · rw [hprog] at h4; simp at h4
            · rw [hprog] at h0; simp at h0
      have hstep : step c i =
          { db := { agents := c.db.agents,
                    sales := c.db.sales ++ [saleRowOf a price ag.commission_percent],
                    payouts := c.db.payouts },
            lock := c.lock,
            threads := c.threads.set i
              { prog := [.addCommission a price, .release a],
                pct := th.pct, bal := th.bal } } := by
        simp [step, hth, hprog, setThr, saleRowOf, hpctv]
      rw [hstep]
      refine ⟨hag, ?_, ?_, ?_, hpay, ?_⟩
      · intro t ht
        rcases List.mem_or_eq_of_mem_set ht with hm | rfl
        · exact hths t hm
        · exact ⟨2, by omega, rfl, fun _ => hpctv⟩
      · rw [hcount]
        simp only [hprog]
        simp
        rw [hsales, List.replicate_succ', ← List.append_assoc]
      · rw [hcount]
        simp only [hprog]
        simp
        exact hagents
      · right
        refine ⟨i, _, List.getElem?_set_eq_of_lt _ hlt, by simp, by simp, hhold.1, ?_⟩
        intro j tj hne hj
        rw [List.getElem?_set_ne (Ne.symm hne)] at hj
        exact hhold.2 j tj hne hj
    · -- d = 2: UPDATE agents SET balance = balance + commission
      simp only [saleTxProg, List.drop] at hprog
      have hpctv : th.pct = roundB64 ag.commission_percent := hpct (by omega)
      have hhold : c.lock = [(a, i)] ∧
          ∀ j tj, j ≠ i → c.threads[j]? = some tj →
            tj.prog.length = 4 ∨ tj.prog.length = 0 := by
        rcases hlock with ⟨hall, hnil⟩ | ⟨j, thj, hj, h1j, h3j, hlockj, hothers⟩
        · exfalso
          rcases hall th hmem with h4 | h0
          · rw [hprog] at h4; simp at h4
          · rw [hprog] at h0; simp at h0
        · by_cases hji : j = i
          · subst hji
            rw [hth] at hj
            injection hj with he
            subst he
            exact ⟨hlockj, hothers⟩
          · exfalso
            rcases hothers i th (Ne.symm hji) hth with h4 | h0
            · rw [hprog] at h4; simp at h4
            · rw [hprog] at h0; simp at h0
      have hstep : step c i =
          { db := { agents := c.db.agents.map (bumpBal a (commOf price ag.commission_percent)),
                    sales := c.db.sales,
                    payouts := c.db.payouts },
            lock := c.lock,
            threads := c.threads.set i
              { prog := [.release a], pct := th.pct, bal := th.bal } } := by
        simp [step, hth, hprog, setThr, updBalance, commOf, hpctv]
      rw [hstep]
      refine ⟨hag, ?_, ?_, ?_, hpay, ?_⟩
      · intro t ht
        rcases List.mem_or_eq_of_mem_set ht with hm | rfl
        · exact hths t hm
        · exact ⟨3, by omega, rfl, fun _ => hpctv⟩
      · rw [hcount]
        have hpos : 0 < c.threads.countP fun t => decide (t.prog.length ≤ 2) :=
          List.countP_pos_iff.mpr ⟨th, hmem, by simp [hprog]⟩
        simp only [hprog]
        simp
        rw [Nat.sub_add_cancel hpos]
        exact hsales
      · rw [hcount]
        simp only [hprog]
        simp
        rw [hagents, map_bump_comp]
        apply map_bump_amount_congr
        ring
      · right
        refine ⟨i, _, List.getElem?_set_eq_of_lt _ hlt, by simp, by simp, hhold.1, ?_⟩
        intro j tj hne hj
        rw [List.getElem?_set_ne (Ne.symm hne)] at hj
        exact hhold.2 j tj hne hj
    · -- d = 3: COMMIT (release the row lock)
      simp only [saleTxProg, List.drop] at hprog
      have hhold : c.lock = [(a, i)] ∧
          ∀ j tj, j ≠ i → c.threads[j]? = some tj →
            tj.prog.length = 4 ∨ tj.prog.length = 0 := by
        rcases hlock with ⟨hall, hnil⟩ | ⟨j, thj, hj, h1j, h3j, hlockj, hothers⟩
        · exfalso
          rcases hall th hmem with h4 | h0
          · rw [hprog] at h4; simp at h4
          · rw [hprog] at h0; simp at h0
        · by_cases hji : j = i
          · subst hji
            rw [hth] at hj
            injection hj with he
            subst he
            exact ⟨hlockj, hothers⟩
          · exfalso
            rcases hothers i th (Ne.symm hji) hth with h4 | h0
            · rw [hprog] at h4; simp at h4
            · rw [hprog] at h0; simp at h0
      have hstep : step c i =
          { db := c.db, lock := [],
            threads := c.threads.set i { prog := [], pct := th.pct, bal := th.bal } } := by
        simp [step, hth, hprog, setThr, hhold.1]
      rw [hstep]
      refine ⟨hag, ?_, ?_, ?_, hpay, ?_⟩
      · intro t ht
        rcases List.mem_or_eq_of_mem_set ht with hm | rfl
        · exact hths t hm
        · exact ⟨4, by omega, rfl, fun _ => hpct (by omega)⟩
      · rw [hcount]
        have hpos : 0 < c.threads.countP fun t => decide (t.prog.length ≤ 2) :=
          List.countP_pos_iff.mpr ⟨th, hmem, by simp [hprog]⟩
        simp only [hprog]
        simp
        rw [Nat.sub_add_cancel hpos]
        exact hsales
      · rw [hcount]
        have hpos : 0 < c.threads.countP fun t => decide (t.prog.length ≤ 1) :=
          List.countP_pos_iff.mpr ⟨th, hmem, by simp [hprog]⟩
        simp only [hprog]
        simp
        rw [hagents]
        apply map_bump_amount_congr
        rw [Nat.cast_sub hpos]
        ring
      · left
        refine ⟨?_, rfl⟩
        intro t ht
        obtain ⟨j, hj⟩ := List.mem_iff_getElem?.mp ht
        by_cases hji : j = i
        · subst hji
          rw [List.getElem?_set_eq_of_lt _ hlt] at hj
          injection hj with he
          subst he
          right
          rfl
        · rw [List.getElem?_set_ne (Ne.symm hji)] at hj
          exact hhold.2 j t hji hj
    · -- d = 4: finished thread, no-op
      simp only [saleTxProg, List.drop] at hprog
      have hstep : step c i = c := by
        simp [step, hth, hprog]
      rw [hstep]
      exact ⟨hag, hths, hsales, hagents, hpay, hlock⟩

theorem sInv_init (db0 : DB) (a : Nat) (ag : Agent) (price : ℚ) (n : Nat)
    (hag : findAgent db0 a = some ag) :
    SInv db0 a ag price (initSales db0 a price n) := by
  have hc2 : (List.replicate n ({ prog := saleTxProg a price, pct := 0, bal := 0 } : Thr)).countP
      (fun th => decide (th.prog.length ≤ 2)) = 0 := by
    apply List.countP_eq_zero.mpr
    intro t ht
    rw [List.eq_of_mem_replicate ht]
    simp [saleTxProg]
  have hc1 : (List.replicate n ({ prog := saleTxProg a price, pct := 0, bal := 0 } : Thr)).countP
      (fun th => decide (th.prog.length ≤ 1)) = 0 := by
    apply List.countP_eq_zero.mpr
    intro t ht
    rw [List.eq_of_mem_replicate ht]
    simp [saleTxProg]
  refine ⟨hag, ?_, ?_, ?_, rfl, Or.inl ⟨?_, rfl⟩⟩
  · intro th hth
    rw [List.eq_of_mem_replicate hth]
    exact ⟨0, by omega, rfl, fun hcon => absurd hcon (by omega)⟩
  · show db0.sales = db0.sales ++ _
    rw [show (initSales db0 a price n).threads =
      List.replicate n ({ prog := saleTxProg a price, pct := 0, bal := 0 } : Thr) from rfl]
    rw [hc2]
    simp
  · show db0.agents = _
    rw [show (initSales db0 a price n).threads =
      List.replicate n ({ prog := saleTxProg a price, pct := 0, bal := 0 } : Thr) from rfl]
    rw [hc1]
    have hmap : db0.agents.map (bumpBal a (((0 : ℕ) : ℚ) * commOf price ag.commission_percent)) =
        db0.agents := by
      have hz : (((0 : ℕ) : ℚ) * commOf price ag.commission_percent) = 0 := by simp
      rw [hz]
      rw [List.map_congr_left fun x _ => bumpBal_zero a x]
      exact List.map_id db0.agents
    rw [hmap]
  · intro t ht
    rw [List.eq_of_mem_replicate ht]
    left
    simp [saleTxProg]

theorem sInv_run (db0 : DB) (a : Nat) (ag : Agent) (price : ℚ) (c : Config)
    (sched : List Nat) (h : SInv db0 a ag price c) :
    SInv db0 a ag price (run c sched) := by
  induction sched generalizing c with
  | nil => exact h
  | cons j rest ih =>
    rw [run, List.foldl_cons, ← run]
    exact ih _ (sInv_step db0 a ag price c j h)

/-- C4 (amended): in the transactional variant the `FOR UPDATE` row lock held
to COMMIT serializes concurrent balance mutations.  For any store, any agent
and any number `n` of concurrent POST /api/sales requests for that agent, every
complete interleaving (any schedule after which all requests have finished)
produces exactly `n` new sale rows with the same snapshot, credits the agent's
balance by exactly `n` times the per-sale commission, and touches nothing
else.  (The `src/index.js` payout endpoint cited by the claim takes no lock;
the counterexample exhibits its stale-read approval.) -/
theorem C4_locked_sales_serialize (db0 : DB) (a : Nat) (ag : Agent) (price : ℚ)
    (n : Nat) (sched : List Nat) (hag : findAgent db0 a = some ag)
    (hdone : ∀ th ∈ (run (initSales db0 a price n) sched).threads, th.prog = []) :
    (run (initSales db0 a price n) sched).db.sales =
      db0.sales ++ List.replicate n (saleRowOf a price ag.commission_percent) ∧
    (run (initSales db0 a price n) sched).db.agents =
      db0.agents.map (bumpBal a (((n : ℕ) : ℚ) * commOf price ag.commission_percent)) ∧
    (run (initSales db0 a price n) sched).db.payouts = db0.payouts := by
  obtain ⟨_, _, hsales, hagents, hpay, _⟩ :=
    sInv_run db0 a ag price _ sched (sInv_init db0 a ag price n hag)
  have hlen : (run (initSales db0 a price n) sched).threads.length = n := by
    rw [run_threads_length]
    simp [initSales]
  have hcnt2 : ((run (initSales db0 a price n) sched).threads.countP
      fun th => decide (th.prog.length ≤ 2)) = n := by
    have h1 := List.countP_eq_length.mpr (fun t ht => by simp [hdone t ht] :
      ∀ t ∈ (run (initSales db0 a price n) sched).threads,
        (fun th => decide (th.prog.length ≤ 2)) t = true)
    rw [h1, hlen]
  have hcnt1 : ((run (initSales db0 a price n) sched).threads.countP
      fun th => decide (th.prog.length ≤ 1)) = n := by
    have h1 := List.countP_eq_length.mpr (fun t ht => by simp [hdone t ht] :
      ∀ t ∈ (run (initSales db0 a price n) sched).threads,
        (fun th => decide (th.prog.length ≤ 1)) t = true)
    rw [h1, hlen]
  refine ⟨?_, ?_, hpay⟩
  · rw [hsales, hcnt2]
  · rw [hagents, hcnt1]

/-- Witness for C4 (amended): two concurrent sales of 200 at 10 percent on the
concrete store, serial schedule - both complete, two identical sale rows, the
balance rises by exactly 2 times 20. -/
theorem C4_locked_sales_serialize_witness :
    findAgent dbOne 1 =
      some { id := 1, name := "A", phone := none, commission_percent := 10, balance := 0 } ∧
    (∀ th ∈ (run (initSales dbOne 1 200 2) [0, 0, 0, 0, 1, 1, 1, 1]).threads, th.prog = []) ∧
    (run (initSales dbOne 1 200 2) [0, 0, 0, 0, 1, 1, 1, 1]).db.sales =
      dbOne.sales ++ List.replicate 2 (saleRowOf 1 200 10) ∧
    (run (initSales dbOne 1 200 2) [0, 0, 0, 0, 1, 1, 1, 1]).db.agents =
      dbOne.agents.map (bumpBal 1 (((2 : ℕ) : ℚ) * commOf 200 10)) := by
  refine ⟨by decide, by decide, ?_, ?_⟩
  · exact (C4_locked_sales_serialize dbOne 1
      { id := 1, name := "A", phone := none, commission_percent := 10, balance := 0 }
      200 2 [0, 0, 0, 0, 1, 1, 1, 1] (by decide) (by decide)).1
  · exact (C4_locked_sales_serialize dbOne 1
      { id := 1, name := "A", phone := none, commission_percent := 10, balance := 0 }
      200 2 [0, 0, 0, 0, 1, 1, 1, 1] (by decide) (by decide)).2.1
